import Mathlib

/-!
Verification development for the galac literate-programming workspace tool.

The Lean definitions below are a shallow embedding of the Python sources:

 * src/galac/models/storages.py       (FileIndex, EntanglementIndex)
 * src/galac/models/diff.py           (DiffedObjectType and friends)
 * src/galac/models/entangled_entities.py
 * src/galac/parsing/markdown.py      (NowebBloodhound)
 * src/galac/parsing/binary.py, entangled.py, parsing/__init__.py (dispatch)
 * src/galac/entanglement_management.py (Intergalactangled)

Modelling conventions:

 * Python strings are Lean String values; byte strings are List Nat with
   each entry below 256.
 * Machine integers do not occur in the Python sources; the xxhash library
   computes 64-bit values, which we model as Nat reduced modulo 2 to the 64.
 * File-system access is abstracted into an explicit PyFS record of pure
   functions (readability and text content per path), passed as an argument.
 * A Python function that can raise is modelled with Except PyError.
 * Where the Python code performs an operation whose outcome is fixed by the
   dynamic semantics of CPython (for example comparing a str against a
   protobuf message object, or evaluating an unbound local name), the model
   encodes that fixed outcome and a comment cites the line of the source.
-/

namespace Galac

/-- Exception values raised by the modelled code paths.  NameError and
TypeError come from the Python runtime; the others are declared in
src/galac/models/errors.py. -/
inductive PyError where
  | nameError (name : String)
  | typeError (msg : String)
  | fileIndexException (msg : String)
  | entanglementIndexException (msg : String)
  | noEntangledWorkspaceError
  deriving DecidableEq

/-- src/galac/models/diff.py: DiffedObjectType, aliased there as
DiffedFileType, DiffedEntanglementBlockType, DiffedCodeBlockType and
DiffedEntanglement.  Note the enum has a fifth member Inexistent besides
the four classification states named by the spec. -/
inductive DiffedObjectType where
  | Modified
  | Created
  | Deleted
  | Unchanged
  | Inexistent
  deriving DecidableEq

/-! ## The xxh64 fast hash

The sources call xxhash.xxh64(data).hexdigest() from the external xxhash
package.  We model that library by the reference XXH64 algorithm with seed 0
(64-bit arithmetic as Nat modulo 2 to the 64), followed by the 16-character
lowercase hexadecimal rendering that hexdigest() returns. -/

def M64 : Nat := 2 ^ 64

def PRIME64_1 : Nat := 11400714785074694791
def PRIME64_2 : Nat := 14029467366897019727
def PRIME64_3 : Nat := 1609587929392839161
def PRIME64_4 : Nat := 9650029242287828579
def PRIME64_5 : Nat := 2870177450012600261

/-- 64-bit left rotation; the argument is assumed reduced below 2 to the 64. -/
def rotl64 (x r : Nat) : Nat := ((x <<< r) % M64) ||| (x >>> (64 - r))

/-- XXH64_round: accumulate one 8-byte lane. -/
def xxh64_round (acc lane : Nat) : Nat :=
  (rotl64 ((acc + lane * PRIME64_2) % M64) 31) * PRIME64_1 % M64

/-- XXH64_mergeRound. -/
def xxh64_mergeRound (h v : Nat) : Nat :=
  ((h ^^^ xxh64_round 0 v) * PRIME64_1 + PRIME64_4) % M64

/-- Little-endian read of eight bytes. -/
def le64 (b0 b1 b2 b3 b4 b5 b6 b7 : Nat) : Nat :=
  b0 + b1 * 2 ^ 8 + b2 * 2 ^ 16 + b3 * 2 ^ 24 + b4 * 2 ^ 32 + b5 * 2 ^ 40 +
    b6 * 2 ^ 48 + b7 * 2 ^ 56

/-- Little-endian read of four bytes. -/
def le32 (b0 b1 b2 b3 : Nat) : Nat :=
  b0 + b1 * 2 ^ 8 + b2 * 2 ^ 16 + b3 * 2 ^ 24

/-- The main 32-byte stripe loop of XXH64: consume stripes while at least
32 bytes remain, returning the four accumulators and the leftover bytes. -/
def xxh64_stripes (v1 v2 v3 v4 : Nat) :
    List Nat → (Nat × Nat × Nat × Nat) × List Nat
  | b0 :: b1 :: b2 :: b3 :: b4 :: b5 :: b6 :: b7 ::
    b8 :: b9 :: b10 :: b11 :: b12 :: b13 :: b14 :: b15 ::
    b16 :: b17 :: b18 :: b19 :: b20 :: b21 :: b22 :: b23 ::
    b24 :: b25 :: b26 :: b27 :: b28 :: b29 :: b30 :: b31 :: rest =>
      xxh64_stripes
        (xxh64_round v1 (le64 b0 b1 b2 b3 b4 b5 b6 b7))
        (xxh64_round v2 (le64 b8 b9 b10 b11 b12 b13 b14 b15))
        (xxh64_round v3 (le64 b16 b17 b18 b19 b20 b21 b22 b23))
        (xxh64_round v4 (le64 b24 b25 b26 b27 b28 b29 b30 b31)) rest
  | l => ((v1, v2, v3, v4), l)

/-- Finalization loop over remaining 8-byte words. -/
def xxh64_tail8 (h : Nat) : List Nat → Nat × List Nat
  | b0 :: b1 :: b2 :: b3 :: b4 :: b5 :: b6 :: b7 :: rest =>
      xxh64_tail8
        (((rotl64 (h ^^^ xxh64_round 0 (le64 b0 b1 b2 b3 b4 b5 b6 b7)) 27)
            * PRIME64_1 + PRIME64_4) % M64) rest
  | l => (h, l)

/-- Finalization step over one remaining 4-byte word (runs at most once). -/
def xxh64_tail4 (h : Nat) : List Nat → Nat × List Nat
  | b0 :: b1 :: b2 :: b3 :: rest =>
      ((((rotl64 (h ^^^ (le32 b0 b1 b2 b3 * PRIME64_1 % M64)) 23)
          * PRIME64_2 + PRIME64_3) % M64), rest)
  | l => (h, l)

/-- Finalization loop over single remaining bytes. -/
def xxh64_tail1 (h : Nat) : List Nat → Nat
  | [] => h
  | b :: rest =>
      xxh64_tail1 ((rotl64 (h ^^^ (b * PRIME64_5 % M64)) 11) * PRIME64_1 % M64)
        rest

/-- XXH64 avalanche mixing. -/
def xxh64_avalanche (h0 : Nat) : Nat :=
  let h1 := h0 ^^^ (h0 >>> 33)
  let h2 := h1 * PRIME64_2 % M64
  let h3 := h2 ^^^ (h2 >>> 29)
  let h4 := h3 * PRIME64_3 % M64
  h4 ^^^ (h4 >>> 32)

/-- XXH64 with seed 0 over a byte sequence. -/
def xxh64 (input : List Nat) : Nat :=
  let len := input.length
  let hr :=
    if 32 ≤ len then
      let sr := xxh64_stripes ((PRIME64_1 + PRIME64_2) % M64) PRIME64_2 0
        (M64 - PRIME64_1) input
      let v1 := sr.1.1
      let v2 := sr.1.2.1
      let v3 := sr.1.2.2.1
      let v4 := sr.1.2.2.2
      let h := (rotl64 v1 1 + rotl64 v2 7 + rotl64 v3 12 + rotl64 v4 18) % M64
      (xxh64_mergeRound (xxh64_mergeRound (xxh64_mergeRound
        (xxh64_mergeRound h v1) v2) v3) v4, sr.2)
    else
      (PRIME64_5, input)
  let h0 := (hr.1 + len) % M64
  let t8 := xxh64_tail8 h0 hr.2
  let t4 := xxh64_tail4 t8.1 t8.2
  xxh64_avalanche (xxh64_tail1 t4.1 t4.2)

/-- One lowercase hexadecimal digit. -/
def hexChar (n : Nat) : Char :=
  if n < 10 then Char.ofNat (48 + n) else Char.ofNat (87 + n)

/-- The 16-character lowercase rendering produced by hexdigest() on an
xxh64 object. -/
def hexdigest16 (h : Nat) : String :=
  ⟨(List.range 16).map (fun k => hexChar (h >>> (4 * (15 - k)) % 16))⟩

/-- UTF-8 encoding of one character, as the Python str.encode() default. -/
def utf8Bytes (c : Char) : List Nat :=
  let n := c.toNat
  if n < 128 then [n]
  else if n < 2048 then [192 + n / 64, 128 + n % 64]
  else if n < 65536 then [224 + n / 4096, 128 + n / 64 % 64, 128 + n % 64]
  else [240 + n / 262144, 128 + n / 4096 % 64, 128 + n / 64 % 64, 128 + n % 64]

/-- Bytes of a Python text string under str.encode(). -/
def strBytes (s : String) : List Nat := (s.data.map utf8Bytes).flatten

/-! ## models/storages.py: FileIndex -/

/-- One File record of the protobuf file index: storages.py keeps a
RawFileIndex whose entries carry a filename and a fast_hash string. -/
structure PbFile where
  filename : String
  fast_hash : String
  deriving DecidableEq

/-- The in-memory file index.  The filename field of the Python dataclass
only names the on-disk persistence target and plays no part in the indexing
operations, so the model keeps just the record list. -/
structure FileIndex where
  files : List PbFile
  deriving DecidableEq

/-- Abstract file system snapshot: which paths are readable and what text
just_read returns for them.  Paths are canonical path strings. -/
structure PyFS where
  readable : String → Bool
  content : String → String

namespace FileIndex

/-- storages.py line 47: the str branch of get_file_hash hashes the encoded
text; the Path branch hashes the raw file bytes.  Both are
xxhash.xxh64(data).hexdigest().  The model takes the text content. -/
def get_file_hash (content : String) : String := hexdigest16 (xxh64 (strBytes content))

/-- storages.py line 59: linear scan for the first entry with this
filename, returning its position or None. -/
def indexof_file (idx : FileIndex) (file : String) : Option Nat :=
  idx.files.findIdx? (fun pb => pb.filename == file)

/-- storages.py line 65: add_file raises when the path is unreadable, then
logs a warning when the path is already indexed, and then appends a fresh
record in every non-raising case: the duplicate branch only logs, it does
not return, so a second record with the same filename is appended.
The result pairs the new index with the warning log. -/
def add_file (fs : PyFS) (idx : FileIndex) (file : String) :
    Except PyError (FileIndex × List String) :=
  if fs.readable file = false then
    .error (.fileIndexException "is not readable")
  else
    let logs :=
      if (indexof_file idx file).isSome then ["already exists in the index"]
      else []
    .ok ({ files := idx.files ++
            [{ filename := file, fast_hash := get_file_hash (fs.content file) }] },
         logs)

/-- storages.py line 85: update_file looks the path up and, when found,
assigns just_read(file) to the stored fast_hash field, that is the raw text
content and not its hash; a missing path raises FileIndexException and the
index is unchanged. -/
def update_file (fs : PyFS) (idx : FileIndex) (file : String) :
    Except PyError FileIndex :=
  match indexof_file idx file with
  | some i =>
      .ok { files := idx.files.set i
              { (idx.files.getD i { filename := "", fast_hash := "" }) with
                  fast_hash := fs.content file } }
  | none => .error (.fileIndexException "does not exist in the index")

end FileIndex

/-! ## models/storages.py: EntanglementIndex

The protobuf schema (proto_gen/entanglement_pb2) gives each Entanglement a
Definition (name, defining file, optional target_file and
indirect_target_file, attributes) and a CodeBlock (hash, content, language).
Proto3 string fields default to the empty string.  Fields not consulted by
the modelled operations (attributes, reference back-links) are omitted. -/

/-- Definition message of an Entanglement. -/
structure Definition where
  name : String := ""
  file : String := ""
  target_file : String := ""
  indirect_target_file : String := ""
  deriving DecidableEq

/-- CodeBlock message of an Entanglement. -/
structure CodeBlock where
  hash : String := ""
  content : String := ""
  language : String := ""
  deriving DecidableEq

/-- Entanglement message: the named-block record of the index. -/
structure Entanglement where
  definition : Definition := {}
  block : CodeBlock := {}
  deriving DecidableEq

instance : Inhabited Entanglement := ⟨{}⟩

namespace EntanglementIndex

/-- storages.py line 144: linear scan comparing each stored definition name
against the given name, returning the position or -1.  This is the call
shape used by get_status, get_block_status and the resolver, which pass a
str. -/
def indexof_entanglement (idx : List Entanglement) (name : String) : Int :=
  match idx.findIdx? (fun pb => pb.definition.name == name) with
  | some i => (i : Int)
  | none => -1

/-- storages.py line 156: positional access into the entanglement list.
All modelled call sites guard the position, so the default is never
returned on those paths. -/
def get_entanglement (idx : List Entanglement) (i : Int) : Entanglement :=
  idx.getD i.toNat default

/-- CPython semantics of the comparison on storages.py line 146 when the
caller passes a whole Entanglement message instead of a name:
str.__eq__ returns NotImplemented against a protobuf message and the
reflected comparison fails too, so the expression is always False. -/
def pyEqStrEntanglement (_name : String) (_e : Entanglement) : Bool := false

/-- storages.py line 159: add_entanglement first runs the duplicate check
of its docstring, but passes the Entanglement object itself to
indexof_entanglement, whose name comparison is then always False (see
pyEqStrEntanglement), so the scan always returns -1 and the entanglement is
appended unconditionally.  The log list records the (never taken)
duplicate branch. -/
def add_entanglement (idx : List Entanglement) (e : Entanglement) :
    List Entanglement × List String :=
  let dupIndex : Int :=
    match idx.findIdx? (fun pb => pyEqStrEntanglement pb.definition.name e) with
    | some i => (i : Int)
    | none => -1
  if dupIndex != -1 then (idx, ["already exists in the index"])
  else (idx ++ [e], [])

end EntanglementIndex

/-! ## entanglement_management.py: file status classification -/

/-- models/diff.py: DiffedFile pairs a path with its classification. -/
structure DiffedFile where
  filename : String
  status : DiffedObjectType
  deriving DecidableEq

/-- Model of Python list.remove on the indexed_files working list
(entanglement_management.py line 331): drop the first element structurally
equal to the given record.  The call site always passes a present element. -/
def removeFirst : List PbFile → PbFile → List PbFile
  | [], _ => []
  | x :: xs, f => if x = f then xs else x :: removeFirst xs f

namespace Intergalactangled

/-- entanglement_management.py lines 309-342, the classification loop of
get_status.  Inputs: the pre-filtered indexed_files working list (lines
298-307 restrict the file index to the requested target), the paths
discovered on disk by get_target_files in scan order, and the disk hash
function (FileIndex.get_file_hash of the current content of a path).
Paths are canonical workspace-relative strings, so the resolve/relative_to
comparison of lines 313-315 is string equality.  For each discovered path
the first matching indexed record is classified Unchanged or Modified by
hash comparison and removed from the working list, an unmatched discovered
path is classified Created, and every leftover indexed record is finally
classified Deleted. -/
def get_status (diskHash : String → String) :
    List PbFile → List String → List DiffedFile
  | indexed, [] =>
      indexed.map (fun f => { filename := f.filename, status := .Deleted })
  | indexed, file :: rest =>
      match indexed.find? (fun f => f.filename == file) with
      | some f =>
          { filename := file,
            status := if f.fast_hash = diskHash file then .Unchanged
                      else .Modified }
            :: get_status diskHash (removeFirst indexed f) rest
      | none =>
          { filename := file, status := .Created }
            :: get_status diskHash indexed rest

end Intergalactangled

/-! ## entanglement_management.py: per-block status -/

/-- models/diff.py: DiffedEntanglementBlock.  get_block_status passes the
Entanglement itself as first field (the dataclass annotation notwithstanding). -/
structure DiffedEntanglementBlock where
  parsed_entanglement : Entanglement
  status : DiffedObjectType
  deriving DecidableEq

namespace Intergalactangled

/-- entanglement_management.py line 344: the index entanglements whose
definition names this file as defining file, target file or indirect
target file. -/
def get_file_blocks (idx : List Entanglement) (file : String) :
    List Entanglement :=
  idx.filter (fun x => x.definition.file == file
    || x.definition.target_file == file
    || x.definition.indirect_target_file == file)

/-- entanglement_management.py lines 422-443, the loop of get_block_status
over the blocks parsed from the current file.  State: the
non_processed_entanglements name set and the last value bound to the local
variable indexed_entanglement (None while no parsed block has been found in
the index).  A parsed block absent from the index gets a star appended to
its name and is classified Created; a present one is classified Unchanged
or Modified by hash equality and its name is removed from the set. -/
def get_block_status_loop (idx : List Entanglement) :
    List Entanglement → List String → Option Entanglement →
    List DiffedEntanglementBlock × List String × Option Entanglement
  | [], np, last => ([], np, last)
  | e :: rest, np, last =>
      let i := EntanglementIndex.indexof_entanglement idx e.definition.name
      if i = -1 then
        let starred :=
          { e with definition := { e.definition with
              name := e.definition.name ++ "*" } }
        let r := get_block_status_loop idx rest np last
        ({ parsed_entanglement := starred, status := .Created } :: r.1, r.2)
      else
        let ie := EntanglementIndex.get_entanglement idx i
        let np1 := if ie.definition.name ∈ np then np.erase ie.definition.name
                   else np
        let st := if e.block.hash = ie.block.hash then DiffedObjectType.Unchanged
                  else DiffedObjectType.Modified
        let r := get_block_status_loop idx rest np1 (some ie)
        ({ parsed_entanglement := e, status := st } :: r.1, r.2)

/-- entanglement_management.py lines 414-453: get_block_status.  The parsed
argument stands for the blocks that DocumentParser(file).parse()
.get_entanglements() yields from the current file content, in document
order.  non_processed_entanglements is a Python set built from the names of
get_file_blocks; the model keeps first-occurrence order.  After the parsed
loop, the deleted-blocks loop logs an f-string that reads the local
variable indexed_entanglement (line 447); when no parsed block was found in
the index that local is unbound and the first iteration raises NameError,
so the Deleted records are only produced when the set is empty or the local
got bound. -/
def get_block_status (idx : List Entanglement) (file : String)
    (parsed : List Entanglement) :
    Except PyError (List DiffedEntanglementBlock) :=
  let np0 := ((get_file_blocks idx file).map (fun e => e.definition.name)).eraseDups
  let r := get_block_status_loop idx parsed np0 none
  match r.2.1, r.2.2 with
  | [], _ => .ok r.1
  | _ :: _, none => .error (.nameError "indexed_entanglement")
  | np, some _ =>
      .ok (r.1 ++ np.filterMap (fun n =>
        let i := EntanglementIndex.indexof_entanglement idx n
        if i = -1 then none
        else some { parsed_entanglement := EntanglementIndex.get_entanglement idx i,
                    status := DiffedObjectType.Deleted }))

end Intergalactangled

/-! ## models/entangled_entities.py: the document tree -/

/-- Block-level nodes of an entangled document tree.  The Python classes
form an inheritance chain: EntangledCodeBlock extends EntangledDocument,
NonEntangledCodeBlock extends EntangledCodeBlock, and RawCodeBlock extends
EntangledDocument with children that are plain text lines. -/
inductive ENode where
  | entangledBlock (source ref_name : String) (indent : Nat)
      (children : List ENode)
  | nonEntangledBlock (source ref_name : String) (indent : Nat)
      (children : List ENode)
  | rawBlock (lines : List String)

/-- The root document: a child list and an optional source_file. -/
structure EntangledDocument where
  children : List ENode := []
  source_file : Option String := none

/-- parsing/entangled.py line 235: the per-block marker pair recognizable
by the generated-form parser. -/
def EntangledNowebBloodhound.generate_entangled_block
    (source ref_name indent : String) : String × String :=
  (indent ++ "# Entanglement: This block is entangled with \x7b" ++ ref_name ++
     "\x7d@\x7b" ++ source ++ "\x7d.",
   indent ++ "# End of block entanglement.")

/-- Modelled from the spec: the tool version tag embedded in the whole-file
footer.  src/galac/version.py is not part of the provided sources; the
value itself plays no role in any claim. -/
def galacVersion : String := "0.1.0"

/-- parsing/entangled.py line 243: the whole-file marker pair. -/
def EntangledNowebBloodhound.generate_entangled_document
    (source : String) : String × String :=
  ("# Entanglement: This file is entangled with \x7b" ++ source ++ "\x7d.",
   "# End of file entanglement. Created by Intergalactangled (Version " ++
     galacVersion ++ ").")

/-- models/entangled_entities.py lines 51-93: EntangledDocument.entangled.
The method takes no comment_chars parameter, yet its final statement (line
93) evaluates format_child(self, comment_chars), and comment_chars is
neither a local, a parameter, nor a module-level name, so CPython raises
NameError before any traversal begins.  (The module also never imports
EntangledNowebBloodhound, which line 64 would need next.)  Every call
therefore raises; the body below is the faithful model of the observable
behaviour. -/
def EntangledDocument.entangled (_doc : EntangledDocument) :
    Except PyError String :=
  .error (.nameError "comment_chars")

/-! ## entanglement_management.py: the reference resolver -/

/-- Items yielded by resolve_non_entangled_document: block nodes, or the
plain text lines a RawCodeBlock child is flattened into. -/
inductive RItem where
  | node (child : ENode)
  | line (s : String)

namespace Intergalactangled

/-- entanglement_management.py lines 482-527: resolve_non_entangled_document,
modelled eagerly (the Python generator is always fully consumed by its
callers).  The result would pair the yielded items with the diagnostics the
body logs, but the body is unrunnable: the module imports only
DocumentParser and EntangledNowebBloodhound from the parsing packages and
never imports EntangledCodeBlock, RawCodeBlock or NonEntangledCodeBlock
from models/entangled_entities, so the very first statement of the loop
body, isinstance(child, EntangledCodeBlock) at line 495, evaluates an
unbound global and raises NameError on the first child of any nonempty
child list.  An empty child list exhausts the generator without entering
the loop, yielding nothing.  No name is ever visited or looked up, no
recursion happens, and none of the seen-set cycle handling of lines
502-509 can run. -/
def resolve_non_entangled_document :
    List ENode → List String → Except PyError (List RItem × List String)
  | [], _seen => .ok ([], [])
  | _child :: _rest, _seen => .error (.nameError "EntangledCodeBlock")

/-! ## entanglement_management.py: find_workspace -/

/-- CPython semantics of line 746: current_dir == current_dir.anchor
compares a pathlib.Path against a str; PurePath.__eq__ returns
NotImplemented for a str and the reflected str comparison fails too, so
the expression is always False and the raise below it is unreachable. -/
def pyEqPathStr : Bool := false

/-- The while-loop of find_workspace (lines 741-745), walking from the
current directory towards the filesystem root.  Directories are component
lists with the leaf first, so the parent is the tail and the root (whose
str equals its anchor, stopping the loop) is the empty list.  hasMarker
tells whether a directory contains the .intergalac marker folder.  The
loop never examines the root itself. -/
def find_workspace_loop (hasMarker : List String → Bool) :
    List String → Option (List String)
  | [] => none
  | d :: parent => if hasMarker (d :: parent) then some (d :: parent)
                   else find_workspace_loop hasMarker parent

/-- entanglement_management.py lines 733-750: find_workspace.  When the
current directory lacks the marker the parents are searched; when that
search also fails, line 746 should raise NoEntangledWorkspaceError, but
its Path-to-str comparison is always False (pyEqPathStr), so control falls
through to line 750 and the function returns the filesystem root instead
of raising. -/
def find_workspace (hasMarker : List String → Bool) (cwd : List String) :
    Except PyError (List String) :=
  if hasMarker cwd then .ok cwd
  else
    match find_workspace_loop hasMarker cwd with
    | some d => .ok d
    | none =>
        if pyEqPathStr then .error .noEntangledWorkspaceError
        else .ok []

end Intergalactangled

/-! ## parsing/markdown.py: NowebBloodhound reference recognition

NOWEB_REFERENCE (line 208) is the anchored regular expression

  caret, group indent of class carriage-return tab formfeed space star,
  two less-than signs, group ref_name of class word-or-hyphen plus,
  two greater-than signs, class carriage-return tab formfeed space star,
  dollar.

The two character classes are disjoint and neither contains the
less-than or greater-than sign, so the greedy left-to-right scan below is
equivalent to the backtracking regex match. -/

/-- The class carriage-return, tab, formfeed, space of NOWEB_REFERENCE. -/
def isNowebWs (c : Char) : Bool :=
  c == '\r' || c == '\t' || c == '\x0c' || c == ' '

/-- The word-or-hyphen class of the ref_name group.  Python re matches
Unicode word characters; the sources only ever form names from ASCII
letters, digits, underscore and hyphen, which this models. -/
def isNowebWord (c : Char) : Bool :=
  c.isAlphanum || c == '_' || c == '-'

/-- Expect two given characters at the head of the input. -/
def expectTwo (a b : Char) : List Char → Option (List Char)
  | c1 :: c2 :: rest => if c1 = a then if c2 = b then some rest else none
                        else none
  | _ => none

/-- Stage three of the NOWEB_REFERENCE match: after the indent group i and
the candidate name group n are fixed, the rest of the line must be two
greater-than signs and trailing whitespace, and the name must be nonempty
(the plus quantifier). -/
def nowebAfterName (i n rest3 : List Char) : Option (List Char × List Char) :=
  match expectTwo '>' '>' rest3 with
  | none => none
  | some t =>
      if n = [] then none
      else if t.all isNowebWs then some (i, n) else none

/-- Stage two: after the indent group i, expect the two less-than signs
and split the remainder greedily at the word-class boundary. -/
def nowebAfterWs (i rest : List Char) : Option (List Char × List Char) :=
  match expectTwo '<' '<' rest with
  | none => none
  | some rest2 =>
      nowebAfterName i (rest2.takeWhile isNowebWord) (rest2.dropWhile isNowebWord)

/-- re.match of NOWEB_REFERENCE against one line (as its character list):
on success returns the indent group and the ref_name group. -/
def nowebMatchCore (l : List Char) : Option (List Char × List Char) :=
  nowebAfterWs (l.takeWhile isNowebWs) (l.dropWhile isNowebWs)

/-- Reference message (proto_gen/entanglement_pb2) as filled by
on_noweb_reference: the referenced name and the indent group text. -/
structure NowebReference where
  reference : List Char
  indent : List Char

namespace NowebBloodhound

/-- The mutable state of a NowebBloodhound run that the claims consult:
the noweb_references list, the NonEntangledCodeBlock children created (the
ref_name with indent recorded as the length of the indent group), and the
lines accumulated into raw segments. -/
structure ScanState where
  noweb_references : List NowebReference := []
  created_children : List (List Char × Nat) := []
  raw_lines : List (List Char) := []

/-- One line of a NowebBloodhound run under the mawk rule dispatch (the
first rule returning a replacement list consumes the line): a line matching
NOWEB_REFERENCE triggers on_noweb_reference (markdown.py lines 220-237),
which appends a Reference and creates a NonEntangledCodeBlock child; any
other line falls to the get_line rule and is appended to the pending raw
segment. -/
def process_line (st : ScanState) (l : List Char) : ScanState :=
  match nowebMatchCore l with
  | some r =>
      { st with
          noweb_references := st.noweb_references ++ [⟨r.2, r.1⟩],
          created_children := st.created_children ++ [(r.2, r.1.length)] }
  | none => { st with raw_lines := st.raw_lines ++ [l] }

/-- A whole run over the lines of a block body. -/
def run (lines : List (List Char)) : ScanState :=
  lines.foldl process_line {}

end NowebBloodhound

/-! ## Parser dispatch (parsing/__init__.py, markdown.py, binary.py,
entangled.py) -/

/-- The three parsing backends registered in DocumentParser.PARSERS. -/
inductive ParserKind where
  | markdown
  | binary
  | entangled
  deriving DecidableEq

/-- markdown.py line 157: compatible with the .md suffix. -/
def MarkdownDocumentParser.is_compatible (suffix : String) : Bool :=
  suffix == ".md"

/-- binary.py lines 12-28: the binary format suffix list. -/
def BinaryDocumentParser.FORMATS : List String :=
  [".pdf", ".bin", ".jpg", ".jpeg", ".png", ".gif", ".exe", ".zip", ".tar",
   ".dll", ".so", ".dylib", ".a", ".o", ".obj", ".lib"]

/-- binary.py line 36: compatible with the listed suffixes. -/
def BinaryDocumentParser.is_compatible (suffix : String) : Bool :=
  BinaryDocumentParser.FORMATS.contains suffix

/-- parsing/entangled.py line 116: compatible with any suffix but .md. -/
def EntangledDocumentParser.is_compatible (suffix : String) : Bool :=
  suffix != ".md"

namespace DocumentParser

/-- parsing/__init__.py line 50: the ordered backend list. -/
def PARSERS : List (ParserKind × (String → Bool)) :=
  [(.markdown, MarkdownDocumentParser.is_compatible),
   (.binary, BinaryDocumentParser.is_compatible),
   (.entangled, EntangledDocumentParser.is_compatible)]

/-- parsing/__init__.py lines 56-62: the constructor loop assigns the
first compatible backend class to self.parser, which stays None when no
predicate fires.  Dispatch depends only on the pathlib suffix of the
input path. -/
def select (suffix : String) : Option ParserKind :=
  (PARSERS.find? (fun p => p.2 suffix)).map (fun p => p.1)

end DocumentParser

/-! ## Concrete inputs used by the claim theorems -/

/-- A resolved document: one block from doc.md holding one raw line. -/
def c1ResolvedDoc : EntangledDocument :=
  { children := [.entangledBlock "doc.md" "greet" 0 [.rawBlock ["print(1)"]]],
    source_file := some "doc.md" }

/-- A file index state holding the same tracked path twice, as two
consecutive add_file calls produce it. -/
def c2DupIndexed : List PbFile :=
  [{ filename := "a", fast_hash := "h" }, { filename := "a", fast_hash := "h" }]

/-- A child list holding one unresolved reference to A, with A and B
referencing each other in the workspace index. -/
def c3CycleChildren : List ENode := [.nonEntangledBlock "" "A" 0 []]

/-- A child list with an unresolved reference to B (a name absent from the
entanglement index) followed by two siblings. -/
def c4MissingRefChildren : List ENode :=
  [.nonEntangledBlock "" "B" 0 [], .rawBlock ["x = 1"],
   .entangledBlock "doc.md" "A" 0 []]

/-- File system for the C5 scenario: everything readable, a.txt reads x. -/
def c5FS : PyFS := { readable := fun _ => true, content := fun _ => "x" }

/-- The index record a first add_file of a.txt creates. -/
def c5Entry : PbFile :=
  { filename := "a.txt", fast_hash := FileIndex.get_file_hash "x" }

/-- An indexed named block for the C5 scenario. -/
def c5Entanglement : Entanglement :=
  { definition := { name := "blk", file := "doc.md" }, block := { hash := "h" } }

/-- File system for the C6 scenario: a.txt reads hello. -/
def c6FS : PyFS := { readable := fun _ => true, content := fun _ => "hello" }

/-- The tracked record for a.txt, hashed as add_file stores it. -/
def c6Entry : PbFile :=
  { filename := "a.txt", fast_hash := FileIndex.get_file_hash "hello" }

/-- The indexed block X, defined by the prose file f.md. -/
def c7X : Entanglement :=
  { definition := { name := "X", file := "f.md" }, block := { hash := "h1" } }

/-- An entanglement index tracking only X. -/
def c7Index : List Entanglement := [c7X]

/-! ## Theorems -/

/-- Published test vector: XXH64 of the empty input with seed 0, rendered
as hexdigest() renders it. -/
theorem xxh64_empty_vector : hexdigest16 (xxh64 []) = "ef46db3751d8e999" := by
  decide

/-- Claim C1: the spec requires Resolve then Render then re-parse to be an
isomorphism on trees.  The code cannot perform the round trip: rendering a
resolved tree is EntangledDocument.entangled, whose body evaluates the
unbound name comment_chars, so the render step raises NameError on every
input, here shown on a concrete one-block resolved document. -/
theorem c1_roundtrip_render_raises :
    EntangledDocument.entangled c1ResolvedDoc
      = .error (.nameError "comment_chars") := rfl

/-- Claim C2, counterexample: with the duplicated index state that two
add_file calls on the same path produce, get_status classifies the single
tracked-and-discovered path a twice, once Unchanged and once Deleted, so
the claimed exactly-one classification fails as stated. -/
theorem c2_counterexample :
    Intergalactangled.get_status (fun _ => "h") c2DupIndexed ["a"]
      = [{ filename := "a", status := .Unchanged },
         { filename := "a", status := .Deleted }]
  ∧ (Intergalactangled.get_status (fun _ => "h") c2DupIndexed ["a"]).countP
      (fun d => d.filename == "a") = 2 := ⟨rfl, rfl⟩

/-- removeFirst on the record found by a filename scan erases exactly the
first occurrence of that filename from the projected name list. -/
theorem removeFirst_map_filename (l : List PbFile) (f : PbFile) (file : String)
    (h : l.find? (fun x => x.filename == file) = some f) :
    (removeFirst l f).map PbFile.filename = (l.map PbFile.filename).erase file := by
  induction l with
  | nil => simp at h
  | cons x xs ih =>
      by_cases hx : x.filename = file
      · rw [show List.find? (fun y => y.filename == file) (x :: xs) = some x by
            simp [hx]] at h
        obtain rfl : x = f := by injection h
        simp [removeFirst, List.erase_cons, hx]
      · rw [show List.find? (fun y => y.filename == file) (x :: xs)
              = List.find? (fun y => y.filename == file) xs by simp [hx]] at h
        have hff : f.filename = file := by simpa using List.find?_some h
        have hxf : x ≠ f := fun he => hx (by rw [he]; exact hff)
        simp only [removeFirst, if_neg hxf, List.map_cons, List.erase_cons]
        rw [if_neg (by simpa using hx), ih h]

/-- Nodup count of one name in a name list. -/
theorem count_of_nodup (ns : List String) (p : String) (h : ns.Nodup) :
    ns.count p = if p ∈ ns then 1 else 0 := by
  by_cases hp : p ∈ ns
  · rw [if_pos hp]
    exact List.count_eq_one_of_mem h hp
  · rw [if_neg hp]
    exact List.count_eq_zero_of_not_mem hp

/-- The trailing Deleted records of get_status mention each leftover
tracked path exactly once when the tracked paths are distinct. -/
theorem countP_deleted_map (indexed : List PbFile) (p : String)
    (hIdx : (indexed.map PbFile.filename).Nodup) :
    (indexed.map (fun f =>
        ({ filename := f.filename, status := .Deleted } : DiffedFile))).countP
        (fun d => d.filename == p)
      = if p ∈ indexed.map PbFile.filename then 1 else 0 := by
  induction indexed with
  | nil => simp
  | cons x xs ih =>
      have hIdx2 : (xs.map PbFile.filename).Nodup := (List.nodup_cons.mp hIdx).2
      have hx : x.filename ∉ xs.map PbFile.filename := (List.nodup_cons.mp hIdx).1
      simp only [List.map_cons, List.countP_cons, ih hIdx2, List.mem_cons]
      by_cases hp : p = x.filename
      · subst hp
        simp [hx]
      · simp [hp, Ne.symm hp]

/-- Each path appears exactly once among the classifications of get_status
when the tracked paths are distinct and the scan yields each discovered
path once. -/
theorem get_status_countP (diskHash : String → String) (discovered : List String) :
    ∀ (indexed : List PbFile), (indexed.map PbFile.filename).Nodup →
      discovered.Nodup → ∀ p : String,
      (Intergalactangled.get_status diskHash indexed discovered).countP
          (fun d => d.filename == p)
        = if p ∈ indexed.map PbFile.filename ∨ p ∈ discovered then 1 else 0 := by
  induction discovered with
  | nil =>
      intro indexed hIdx _ p
      simpa [Intergalactangled.get_status] using countP_deleted_map indexed p hIdx
  | cons file rest ih =>
      intro indexed hIdx hDisc p
      have hfr : file ∉ rest := (List.nodup_cons.mp hDisc).1
      have hrest : rest.Nodup := (List.nodup_cons.mp hDisc).2
      unfold Intergalactangled.get_status
      cases hf : indexed.find? (fun f => f.filename == file) with
      | some f =>
          have hnames := removeFirst_map_filename indexed f file hf
          have hIdx2 : ((removeFirst indexed f).map PbFile.filename).Nodup := by
            rw [hnames]
            exact hIdx.erase file
          rw [List.countP_cons, ih (removeFirst indexed f) hIdx2 hrest p, hnames]
          by_cases hp : p = file
          · subst hp
            have h1 : p ∉ (indexed.map PbFile.filename).erase p :=
              hIdx.not_mem_erase
            simp [h1, hfr]
          · have h2 : p ∈ (indexed.map PbFile.filename).erase file
                ↔ p ∈ indexed.map PbFile.filename := by
              rw [hIdx.mem_erase_iff]
              simp [hp]
            simp only [h2, List.mem_cons]
            simp [hp, Ne.symm hp]
      | none =>
          have hnot : file ∉ indexed.map PbFile.filename := by
            intro hmem
            rcases List.mem_map.mp hmem with ⟨x, hxmem, hxf⟩
            have hnone := List.find?_eq_none.mp hf x hxmem
            simp [hxf] at hnone
          rw [List.countP_cons, ih indexed hIdx hrest p]
          by_cases hp : p = file
          · subst hp
            simp [hnot, hfr]
          · simp only [List.mem_cons]
            simp [hp, Ne.symm hp]

/-- Every classification produced by get_status is one of the four states,
never the fifth enum member Inexistent. -/
theorem get_status_no_inexistent (diskHash : String → String)
    (discovered : List String) :
    ∀ (indexed : List PbFile),
      ∀ d ∈ Intergalactangled.get_status diskHash indexed discovered,
        d.status ≠ DiffedObjectType.Inexistent := by
  induction discovered with
  | nil =>
      intro indexed d hd
      simp only [Intergalactangled.get_status, List.mem_map] at hd
      rcases hd with ⟨f, _, rfl⟩
      simp
  | cons file rest ih =>
      intro indexed d hd
      unfold Intergalactangled.get_status at hd
      cases hf : indexed.find? (fun f => f.filename == file) with
      | some f =>
          rw [hf] at hd
          rcases List.mem_cons.mp hd with rfl | hd2
          · by_cases hh : f.fast_hash = diskHash file <;> simp [hh]
          · exact ih (removeFirst indexed f) d hd2
      | none =>
          rw [hf] at hd
          rcases List.mem_cons.mp hd with rfl | hd2
          · simp
          · exact ih indexed d hd2

/-- Claim C2 (amended): for every index state whose tracked paths are
pairwise distinct, and every scan result listing each discovered path once
(as get_target_files produces), get_status assigns each tracked-or-
discovered path exactly one classification, drawn from the four states
Unchanged, Modified, Created, Deleted. -/
theorem c2_status_classification (diskHash : String → String)
    (indexed : List PbFile) (discovered : List String)
    (hIdx : (indexed.map PbFile.filename).Nodup) (hDisc : discovered.Nodup) :
    (∀ d ∈ Intergalactangled.get_status diskHash indexed discovered,
        d.status ≠ DiffedObjectType.Inexistent)
  ∧ ∀ p : String,
      (Intergalactangled.get_status diskHash indexed discovered).countP
          (fun d => d.filename == p)
        = if p ∈ indexed.map PbFile.filename ∨ p ∈ discovered then 1 else 0 :=
  ⟨get_status_no_inexistent diskHash discovered indexed,
   get_status_countP diskHash discovered indexed hIdx hDisc⟩

/-- Witness for the amended C2 theorem at a concrete state: one tracked
path, two discovered paths, each classified exactly once. -/
theorem c2_status_classification_witness :
    (Intergalactangled.get_status (fun _ => "h1")
        [{ filename := "a", fast_hash := "h1" }] ["a", "b"]).countP
        (fun d => d.filename == "a") = 1 := by
  have h := (c2_status_classification (fun _ => "h1")
    [{ filename := "a", fast_hash := "h1" }] ["a", "b"]
    (by decide) (by decide)).2 "a"
  rw [h]
  decide

/-- Claim C3: resolving a tree whose reference graph is cyclic.  The
module never imports EntangledCodeBlock, so the isinstance test opening
the loop body of resolve_non_entangled_document raises NameError on the
first child: resolution of the cyclic input aborts at once, no name is
visited, no branch is skipped, and no cycle marker or diagnostic is
emitted, against the claimed cycle handling. -/
theorem c3_resolver_raises_on_cyclic_input :
    Intergalactangled.resolve_non_entangled_document c3CycleChildren []
      = .error (.nameError "EntangledCodeBlock") := rfl

/-- Claim C4: resolving a tree that references the absent name B.  The
same unbound isinstance argument raises NameError on the first child, so
the resolver neither records a BlockNotFound diagnostic or error node for
B nor continues over the remaining siblings: it raises instead of
resolving anything. -/
theorem c4_resolver_raises_on_missing_name :
    Intergalactangled.resolve_non_entangled_document c4MissingRefChildren []
      = .error (.nameError "EntangledCodeBlock") := rfl

/-- Claim C5: adding an entry under an already-present key.  add_file on
an indexed path logs the duplicate warning but appends a second record
anyway, and add_entanglement appends a duplicate because its check
compares stored names against the Entanglement object, which is always
False, so neither insert is the claimed no-op. -/
theorem c5_duplicate_add_appends :
    FileIndex.add_file c5FS { files := [c5Entry] } "a.txt"
      = .ok ({ files := [c5Entry, c5Entry] }, ["already exists in the index"])
  ∧ EntanglementIndex.add_entanglement [c5Entanglement] c5Entanglement
      = ([c5Entanglement, c5Entanglement], []) := ⟨rfl, rfl⟩

/-- Claim C6: update_file on a tracked path overwrites the stored
fast_hash with the raw current text (hello) instead of the 64-bit content
hash that add_file stores, and the two differ; on an untracked path it
raises FileIndexException as claimed. -/
theorem c6_update_stores_raw_content :
    FileIndex.update_file c6FS { files := [c6Entry] } "a.txt"
      = .ok { files := [{ filename := "a.txt", fast_hash := "hello" }] }
  ∧ "hello" ≠ FileIndex.get_file_hash "hello"
  ∧ FileIndex.update_file c6FS { files := [c6Entry] } "missing.txt"
      = .error (.fileIndexException "does not exist in the index") :=
  ⟨rfl, by decide, rfl⟩

/-- Claim C7: per-block status.  When the current parse of f.md yields no
blocks while the index still holds X for that file, the deleted-blocks
loop evaluates its log f-string, which reads the local variable
indexed_entanglement before any assignment, so get_block_status raises
NameError instead of reporting X Deleted.  The second conjunct shows the
classification working as claimed once the local is bound: re-parsing the
unchanged block yields exactly one Unchanged record. -/
theorem c7_deleted_blocks_raise :
    Intergalactangled.get_block_status c7Index "f.md" []
      = .error (.nameError "indexed_entanglement")
  ∧ Intergalactangled.get_block_status c7Index "f.md" [c7X]
      = .ok [{ parsed_entanglement := c7X, status := .Unchanged }] := ⟨rfl, rfl⟩

/-- Claim C8: when no directory from the current one up to the root
contains the .intergalac marker, find_workspace returns the filesystem
root instead of raising: the Path-against-str comparison guarding the
raise is always False, so NoEntangledWorkspaceError is unreachable. -/
theorem c8_find_workspace_returns_root :
    Intergalactangled.find_workspace (fun _ => false) ["user", "home"]
      = .ok []
  ∧ ∀ e : PyError,
      Intergalactangled.find_workspace (fun _ => false) ["user", "home"]
        ≠ .error e := by
  refine ⟨rfl, fun e h => ?_⟩
  rw [show Intergalactangled.find_workspace (fun _ => false) ["user", "home"]
      = .ok [] from rfl] at h
  exact Except.noConfusion h

/-- A whitespace-class run followed by a character outside the class: the
greedy scan takes exactly the run. -/
theorem takeWhile_append_cons {α} (p : α → Bool) (xs : List α) (c : α)
    (ys : List α) (hxs : xs.all p = true) (hc : p c = false) :
    (xs ++ c :: ys).takeWhile p = xs := by
  induction xs with
  | nil => simp [List.takeWhile_cons, hc]
  | cons x xs ih =>
      have hx : p x = true ∧ xs.all p = true := by simpa using hxs
      simp [List.takeWhile_cons, hx.1, ih hx.2]

/-- Companion of takeWhile_append_cons for the remainder. -/
theorem dropWhile_append_cons {α} (p : α → Bool) (xs : List α) (c : α)
    (ys : List α) (hxs : xs.all p = true) (hc : p c = false) :
    (xs ++ c :: ys).dropWhile p = c :: ys := by
  induction xs with
  | nil => simp [List.dropWhile_cons, hc]
  | cons x xs ih =>
      have hx : p x = true ∧ xs.all p = true := by simpa using hxs
      simp [List.dropWhile_cons, hx.1, ih hx.2]

/-- expectTwo succeeds exactly on inputs headed by the two characters. -/
theorem expectTwo_eq_some {a b : Char} {l r : List Char} :
    expectTwo a b l = some r ↔ l = a :: b :: r := by
  match l with
  | [] => simp [expectTwo]
  | [c1] => simp [expectTwo]
  | c1 :: c2 :: rest =>
      by_cases h1 : c1 = a
      · subst h1
        by_cases h2 : c2 = b
        · subst h2
          simp [expectTwo]
        · simp [expectTwo, h2]
      · simp [expectTwo, h1]

/-- Reduction of stage two on a literal double less-than head. -/
theorem nowebAfterWs_cons (i X : List Char) :
    nowebAfterWs i ('<' :: '<' :: X)
      = nowebAfterName i (X.takeWhile isNowebWord) (X.dropWhile isNowebWord) := rfl

/-- Reduction of stage three on a literal double greater-than head. -/
theorem nowebAfterName_cons (i n t : List Char) :
    nowebAfterName i n ('>' :: '>' :: t)
      = if n = [] then none
        else if t.all isNowebWs then some (i, n) else none := rfl

/-- Claim C9: a content line is recognized as a noweb reference if and
only if it decomposes as optional leading whitespace, two less-than signs,
a nonempty name of word-or-hyphen characters, two greater-than signs, and
only whitespace to the end of the line; on recognition,
on_noweb_reference appends one Reference recording the name and the
indent text, and creates one unresolved-reference child recording the
name and the indent column. -/
theorem c9_noweb_line_recognition (l i n : List Char)
    (st : NowebBloodhound.ScanState) :
    (nowebMatchCore l = some (i, n)
      ↔ ∃ t, l = i ++ '<' :: '<' :: (n ++ '>' :: '>' :: t)
          ∧ i.all isNowebWs = true ∧ n ≠ [] ∧ n.all isNowebWord = true
          ∧ t.all isNowebWs = true)
  ∧ (NowebBloodhound.process_line st l).noweb_references
      = st.noweb_references
        ++ ((nowebMatchCore l).map
              (fun r => ({ reference := r.2, indent := r.1 } : NowebReference))).toList
  ∧ (NowebBloodhound.process_line st l).created_children
      = st.created_children
        ++ ((nowebMatchCore l).map (fun r => (r.2, r.1.length))).toList := by
  refine ⟨⟨?_, ?_⟩, ?_, ?_⟩
  · intro h
    unfold nowebMatchCore nowebAfterWs nowebAfterName at h
    split at h
    · simp at h
    · rename_i rest2 h1
      split at h
      · simp at h
      · rename_i t h2
        split at h
        · simp at h
        · rename_i hn
          split at h
          · rename_i ht
            have hpair : l.takeWhile isNowebWs = i
                ∧ rest2.takeWhile isNowebWord = n := by
              have hinj := Option.some.inj h
              exact ⟨congrArg Prod.fst hinj, congrArg Prod.snd hinj⟩
            refine ⟨t, ?_, ?_, ?_, ?_, ht⟩
            · have hl : l = l.takeWhile isNowebWs ++ l.dropWhile isNowebWs :=
                (List.takeWhile_append_dropWhile _ _).symm
              have hr2 : rest2
                  = rest2.takeWhile isNowebWord ++ rest2.dropWhile isNowebWord :=
                (List.takeWhile_append_dropWhile _ _).symm
              rw [expectTwo_eq_some.mp h2] at hr2
              rw [expectTwo_eq_some.mp h1, hr2, hpair.1, hpair.2] at hl
              exact hl
            · rw [← hpair.1]
              exact List.all_takeWhile
            · rw [← hpair.2]
              exact hn
            · rw [← hpair.2]
              exact List.all_takeWhile
          · simp at h
  · rintro ⟨t, rfl, hi, hn0, hnw, ht⟩
    have hdw : (i ++ '<' :: '<' :: (n ++ '>' :: '>' :: t)).dropWhile isNowebWs
        = '<' :: '<' :: (n ++ '>' :: '>' :: t) :=
      dropWhile_append_cons isNowebWs i '<' _ hi (by decide)
    have htw : (i ++ '<' :: '<' :: (n ++ '>' :: '>' :: t)).takeWhile isNowebWs
        = i :=
      takeWhile_append_cons isNowebWs i '<' _ hi (by decide)
    have hdw2 : (n ++ '>' :: '>' :: t).dropWhile isNowebWord = '>' :: '>' :: t :=
      dropWhile_append_cons isNowebWord n '>' ('>' :: t) hnw (by decide)
    have htw2 : (n ++ '>' :: '>' :: t).takeWhile isNowebWord = n :=
      takeWhile_append_cons isNowebWord n '>' ('>' :: t) hnw (by decide)
    unfold nowebMatchCore
    rw [hdw, htw, nowebAfterWs_cons, hdw2, htw2, nowebAfterName_cons,
        if_neg hn0, if_pos ht]
  · cases h : nowebMatchCore l <;> simp [NowebBloodhound.process_line, h]
  · cases h : nowebMatchCore l <;> simp [NowebBloodhound.process_line, h]

/-- Claim C10: the first-match dispatch of DocumentParser always selects
exactly one backend, determined by the suffix alone: the Markdown parser
for .md, the binary parser for a suffix in its format list, and the
generated-form parser for every other suffix; in particular the selected
parser is never None. -/
theorem c10_dispatch_total (suffix : String) :
    DocumentParser.select suffix
      = some (if suffix = ".md" then ParserKind.markdown
              else if suffix ∈ BinaryDocumentParser.FORMATS then ParserKind.binary
              else ParserKind.entangled) := by
  unfold DocumentParser.select DocumentParser.PARSERS
  by_cases h1 : suffix = ".md"
  · subst h1
    rfl
  · have hm : MarkdownDocumentParser.is_compatible suffix = false := by
      simp [MarkdownDocumentParser.is_compatible, h1]
    by_cases h2 : suffix ∈ BinaryDocumentParser.FORMATS
    · have hb : BinaryDocumentParser.is_compatible suffix = true :=
        List.elem_iff.mpr h2
      simp [List.find?, hm, hb, h1, h2]
    · have hb : BinaryDocumentParser.is_compatible suffix = false := by
        rw [← Bool.not_eq_true]
        intro hc
        have hc2 : List.elem suffix BinaryDocumentParser.FORMATS = true := hc
        exact h2 (List.elem_iff.mp hc2)
      have he : EntangledDocumentParser.is_compatible suffix = true := by
        simp [EntangledDocumentParser.is_compatible, h1]
      simp [List.find?, hm, hb, he, h1, h2]

end Galac
